import Mathlib

/-!
Verification of the statistical toolkit of the data-viz-showcase repository.

The Python sources are shallowly embedded: Python floats are modelled as
rationals (ℚ), Python `int()` truncation, `range`, `round(x, 2)` and list
comprehensions are modelled by explicit Lean functions, and fallible library
calls (scipy raising `ValueError`) are modelled with `Option`.  Stateful code
(the process-global `random` generator) is modelled by explicit state passing
over an abstract stream of draws.
-/

set_option maxRecDepth 10000
set_option maxHeartbeats 1000000

/-! ## Embedding of src/linear_regression.py -/

namespace LinearRegression

/-- Embeds `get_y` (line 10): y value for a given x using `y = m*x + b`. -/
def get_y (m b x : ℚ) : ℚ := m * x + b

/-- Embeds `calculate_error` (line 15): absolute error between a point and the line. -/
def calculate_error (m b : ℚ) (point : ℚ × ℚ) : ℚ :=
  |get_y m b point.1 - point.2|

/-- Embeds `calculate_all_error` (line 22): total error over all points. -/
def calculate_all_error (m b : ℚ) (points : List (ℚ × ℚ)) : ℚ :=
  (points.map (calculate_error m b)).sum

/-- Total error of a candidate pair, uncurried form of `calculate_all_error`. -/
def totalErr (points : List (ℚ × ℚ)) (p : ℚ × ℚ) : ℚ :=
  calculate_all_error p.1 p.2 points

/-- Python `int()` applied to a float: truncation toward zero. -/
def pyInt (q : ℚ) : ℤ := if 0 ≤ q then ⌊q⌋ else ⌈q⌉

/-- Python `range(a, b + 1)` over integers: `[a, a+1, ..., b]` (empty when `b < a`). -/
def pyRangeIncl (a b : ℤ) : List ℤ :=
  (List.range (b - a + 1).toNat).map (fun i : ℕ => a + (i : ℤ))

/-- Embeds line 32: `[m / 10 for m in range(int(m_range[0]*10), int(m_range[1]*10)+1)]`.
Note the source hardcodes the factor 10; the `step` argument of
`find_best_line` does not occur in this comprehension. -/
def possible_ms (m_range : ℚ × ℚ) : List ℚ :=
  (pyRangeIncl (pyInt (m_range.1 * 10)) (pyInt (m_range.2 * 10))).map
    (fun m : ℤ => (m : ℚ) / 10)

/-- Embeds line 33: the intercept candidates, likewise hardcoding the factor 10. -/
def possible_bs (b_range : ℚ × ℚ) : List ℚ :=
  (pyRangeIncl (pyInt (b_range.1 * 10)) (pyInt (b_range.2 * 10))).map
    (fun b : ℤ => (b : ℚ) / 10)

/-- Python 3 `round` to an integer: round-half-to-even (banker's rounding). -/
def roundHalfEven (x : ℚ) : ℤ :=
  if x - ⌊x⌋ < 1/2 then ⌊x⌋
  else if 1/2 < x - ⌊x⌋ then ⌊x⌋ + 1
  else if ⌊x⌋ % 2 = 0 then ⌊x⌋ else ⌊x⌋ + 1

/-- Python `round(x, 2)`: round-half-to-even at two decimal places. -/
def pyRound2 (q : ℚ) : ℚ := (roundHalfEven (q * 100) : ℚ) / 100

/-- Loop state of `find_best_line` (lines 35-37): `smallest_error` starts as
`float("inf")`, modelled as `none`; every computed error is finite (`some`). -/
structure SearchState where
  best_m : ℚ
  best_b : ℚ
  smallest_error : Option ℚ
deriving DecidableEq

/-- Result dict of `find_best_line` (lines 47-52).  The `equation` entry is a
string rendering of the same rounded `best_m`/`best_b` and carries no further
data, so it is not modelled separately.  A `smallest_error` of `none` models
`float("inf")` (reached only when the search grid is empty). -/
structure FitResult where
  best_m : ℚ
  best_b : ℚ
  smallest_error : Option ℚ
deriving DecidableEq

/-- Loop body of lines 39-45: compute the candidate's total error and keep it
iff it is strictly smaller than the best so far (any finite error beats the
initial `float("inf")`). -/
def stepState (points : List (ℚ × ℚ)) (st : SearchState) (mb : ℚ × ℚ) : SearchState :=
  match st.smallest_error with
  | none => ⟨mb.1, mb.2, some (totalErr points mb)⟩
  | some s =>
    if totalErr points mb < s then ⟨mb.1, mb.2, some (totalErr points mb)⟩ else st

/-- The nested `for m in possible_ms: for b in possible_bs:` enumeration order:
ascending slope, then ascending intercept. -/
def gridOf (ms bs : List ℚ) : List (ℚ × ℚ) :=
  ms.flatMap (fun m => bs.map (fun b => (m, b)))

/-- Embeds `find_best_line` (lines 27-52).  The `step` parameter is accepted,
with source default 0.1, but — exactly as in the source — never used: the
candidate grids are built by `possible_ms`/`possible_bs` with the hardcoded
factor 10. -/
def find_best_line (points : List (ℚ × ℚ)) (m_range b_range : ℚ × ℚ)
    (step : ℚ) : FitResult :=
  let ms := possible_ms m_range
  let bs := possible_bs b_range
  let final := (gridOf ms bs).foldl (stepState points) ⟨0, 0, none⟩
  { best_m := pyRound2 final.best_m
    best_b := pyRound2 final.best_b
    smallest_error := final.smallest_error.map pyRound2 }

/-- Embeds the R² computation of `analyze_linear_regression` (lines 71-79),
parameterised by the data points and the fitted line it is applied to:
predictions from the best line, then `1 - ss_res/ss_tot` with the `ss_tot = 0`
case defined as 0. -/
def r_squared_of (datapoints : List (ℚ × ℚ)) (best_m best_b : ℚ) : ℚ :=
  let predictions := datapoints.map (fun p => get_y best_m best_b p.1)
  let y_actual := datapoints.map Prod.snd
  let y_mean := y_actual.sum / (y_actual.length : ℚ)
  let ss_res := ((y_actual.zip predictions).map (fun yp => (yp.1 - yp.2) ^ 2)).sum
  let ss_tot := (y_actual.map (fun y => (y - y_mean) ^ 2)).sum
  if ss_tot > 0 then 1 - ss_res / ss_tot else 0

/-- Modelled from the spec: section 4.4 describes the candidate grid as "the
discretized grid defined by range/step", i.e. `lower, lower+step, ..., upper`.
Stated here only to compare against the grid the source actually enumerates. -/
def spec_step_grid (lower upper step : ℚ) : List ℚ :=
  (List.range (⌊(upper - lower) / step⌋.toNat + 1)).map
    (fun i : ℕ => lower + (i : ℚ) * step)

/-- Points generated exactly as `y = 2x + 1` for x in {1,2,3,4,5}. -/
def exactLinePoints : List (ℚ × ℚ) := [(1, 3), (2, 5), (3, 7), (4, 9), (5, 11)]

end LinearRegression

/-! ## Model of the scipy.stats calls made by the analysis scripts -/

namespace Scipy

/-- Row totals of a table (scipy: `observed.sum(axis=1)`). -/
def rowSums (t : List (List ℚ)) : List ℚ := t.map List.sum

/-- Number of columns of a (rectangular) table. -/
def numCols (t : List (List ℚ)) : ℕ := (t.headD []).length

/-- Column total `j` of a table (scipy: `observed.sum(axis=0)`). -/
def colSum (t : List (List ℚ)) (j : ℕ) : ℚ :=
  (t.map (fun r => r.getD j 0)).sum

/-- Grand total of a table. -/
def grandTotal (t : List (List ℚ)) : ℚ := (rowSums t).sum

/-- Observed count in cell (i, j). -/
def obsCell (t : List (List ℚ)) (i j : ℕ) : ℚ := (t.getD i []).getD j 0

/-- Expected count in cell (i, j): (row total × column total) / grand total. -/
def expectedCell (t : List (List ℚ)) (i j : ℕ) : ℚ :=
  (rowSums t).getD i 0 * colSum t j / grandTotal t

/-- Sign function (numpy `np.sign`). -/
def pySign (x : ℚ) : ℚ := if 0 < x then 1 else if x < 0 then -1 else 0

/-- Plain Pearson statistic: Σ over cells of (observed − expected)² / expected. -/
def plainChi2 (t : List (List ℚ)) : ℚ :=
  ((List.range t.length).map (fun i =>
    ((List.range (numCols t)).map (fun j =>
      (obsCell t i j - expectedCell t i j) ^ 2 / expectedCell t i j)).sum)).sum

/-- Yates-corrected statistic: each observed count is first moved 0.5 toward
its expected count (scipy: `observed = observed + 0.5 * np.sign(expected - observed)`),
then the Pearson formula is applied. -/
def yatesChi2 (t : List (List ℚ)) : ℚ :=
  ((List.range t.length).map (fun i =>
    ((List.range (numCols t)).map (fun j =>
      (obsCell t i j + 1/2 * pySign (expectedCell t i j - obsCell t i j)
        - expectedCell t i j) ^ 2 / expectedCell t i j)).sum)).sum

/-- Models `scipy.stats.chi2_contingency(observed)` with the default
`correction=True`, returning the (statistic, degrees-of-freedom) pair:
`none` models the `ValueError` scipy raises on an empty table or on any zero
expected frequency; dof = (rows−1)(cols−1); the degenerate dof = 0 case
(a 1×n or n×1 table) returns statistic 0 as scipy does; for dof = 1 (2×2
tables) scipy applies the Yates continuity correction.  The p-value, the
third element of scipy's return, is the chi-square survival function of the
statistic and dof and is not modelled (the claims concern only statistic
and dof). -/
def chi2_contingency (t : List (List ℚ)) : Option (ℚ × ℕ) :=
  if t.length = 0 ∨ numCols t = 0 then none
  else if (List.range t.length).any (fun i =>
      (List.range (numCols t)).any (fun j => decide (expectedCell t i j = 0))) then
    none
  else
    let dof := (t.length - 1) * (numCols t - 1)
    if dof = 0 then some (0, 0)
    else if dof = 1 then some (yatesChi2 t, dof)
    else some (plainChi2 t, dof)

/-- Modelled from the spec (section 4.2 words): "for each cell, expected
count = (row total × column total) / grand total; statistic =
Σ (observed − expected)² / expected".  Stated to compare with what the code
(via scipy) actually reports. -/
def spec_chi_square_stat (t : List (List ℚ)) : ℚ :=
  ((List.range t.length).map (fun i =>
    ((List.range (numCols t)).map (fun j =>
      (obsCell t i j - expectedCell t i j) ^ 2 / expectedCell t i j)).sum)).sum

end Scipy

/-! ## Embedding of the chi-square loop of src/biodiversity_analysis.py -/

namespace Biodiversity

/-- Default row used by `getD` (never observed through the loop bounds). -/
def emptyRow : String × ℕ × ℕ := ("", 0, 0)

/-- Python `range(a, b)`: `[a, ..., b-1]`. -/
def pyRange (a b : ℕ) : List ℕ := (List.range (b - a)).map (fun i : ℕ => a + i)

/-- The 2×2 table `category_pivot.loc[[cat1, cat2], ['protected', 'not_protected']].values`
for the pair (i, j) of `category_pivot` rows, each row being
(category, protected count, not_protected count) in index order (line 104). -/
def pairTable (rows : List (String × ℕ × ℕ)) (i j : ℕ) : List (List ℚ) :=
  [[((rows.getD i emptyRow).2.1 : ℚ), ((rows.getD i emptyRow).2.2 : ℚ)],
   [((rows.getD j emptyRow).2.1 : ℚ), ((rows.getD j emptyRow).2.2 : ℚ)]]

/-- The dict key `f"{cat1}_vs_{cat2}"` of line 107. -/
def pairKey (rows : List (String × ℕ × ℕ)) (i j : ℕ) : String :=
  (rows.getD i emptyRow).1 ++ "_vs_" ++ (rows.getD j emptyRow).1

/-- Embeds the loop of lines 98-113: for `i in range(min(3, len))` and
`j in range(i+1, min(4, len))` run `chi2_contingency` on the pair's 2×2 table
inside `try: ... except: pass` — a successful call appends the pair's entry,
a raising call is silently skipped.  Each entry records the key and scipy's
(statistic, dof); the p-value and `significant` flag derived from the
statistic are not modelled (see `Scipy.chi2_contingency`). -/
def chi_square_results (rows : List (String × ℕ × ℕ)) : List (String × ℚ × ℕ) :=
  (pyRange 0 (min 3 rows.length)).flatMap (fun i =>
    (pyRange (i + 1) (min 4 rows.length)).filterMap (fun j =>
      (Scipy.chi2_contingency (pairTable rows i j)).map
        (fun r => (pairKey rows i j, r))))

/-- The (i, j) index pairs the loop of lines 100-101 visits, in order. -/
def pairIndices (n : ℕ) : List (ℕ × ℕ) :=
  (pyRange 0 (min 3 n)).flatMap (fun i =>
    (pyRange (i + 1) (min 4 n)).map (fun j => (i, j)))

end Biodiversity


/-! ## Embedding of the two-sample test and group stats of src/familiar_analysis.py -/

namespace Familiar

/-- Python float values as produced by numpy/scipy here: either NaN or a real
number (modelled as a rational). -/
inductive PyFloat where
  | nan : PyFloat
  | val : ℚ → PyFloat
deriving DecidableEq

/-- Python comparison `p < c` on a possibly-NaN float: NaN compares False. -/
def pyFloatLtBool (p : PyFloat) (c : ℚ) : Bool :=
  match p with
  | .nan => false
  | .val q => decide (q < c)

/-- Models `scipy.stats.ttest_ind(a, b)` (default `equal_var=True`): when
either sample has fewer than 2 observations its sample variance (ddof = 1) is
NaN, so both the t statistic and the p-value come out NaN — scipy raises
nothing and returns normally.  For samples of size ≥ 2 the statistic and the
two-tailed p-value are real numbers (transcendental functions of the data via
the t distribution); they are supplied as parameters `tfun`/`pfun` rather than
modelled numerically, since no claim depends on their values. -/
def ttest_ind (tfun pfun : List ℚ → List ℚ → ℚ) (a b : List ℚ) :
    PyFloat × PyFloat :=
  if a.length < 2 ∨ b.length < 2 then (PyFloat.nan, PyFloat.nan)
  else (PyFloat.val (tfun a b), PyFloat.val (pfun a b))

/-- The `lifespan_test` entry of the result dict (lines 81-85). -/
structure LifespanTest where
  t_statistic : PyFloat
  p_value : PyFloat
  significant : Bool
deriving DecidableEq

/-- Embeds lines 56-59 and 81-85 of `analyze_familiar`: run `ttest_ind` on the
vein and artery lifespan samples — with no size check of any kind — and
package the statistic, the p-value and `significant: pval < 0.05` (False when
the p-value is NaN, as in Python). -/
def lifespan_test (tfun pfun : List ℚ → List ℚ → ℚ)
    (vein artery : List ℚ) : LifespanTest :=
  let r := ttest_ind tfun pfun vein artery
  { t_statistic := r.1, p_value := r.2, significant := pyFloatLtBool r.2 (1/20) }

/-- The lifespan observations of one pack: embeds the row filtering of
lines 56-57 (`lifespans[lifespans['pack'] == p]['lifespan']`). -/
def packValues (rows : List (String × ℚ)) (p : String) : List ℚ :=
  (rows.filter (fun r => r.1 == p)).map Prod.snd

/-- Embeds the `lifespan_stats` mean entry of lines 68-80: pandas
`groupby('pack')` produces a mean only for packs that occur in the data, and
the record is filled with `lifespan_by_pack['mean'].get(pack, 0)` — an absent
(empty) pack is silently reported as mean 0 rather than as an error.  (The
`std` entry uses the same `.get(pack, 0)` fallback; its value for nonempty
packs involves a square root and is not needed by any claim.) -/
def reported_pack_mean (rows : List (String × ℚ)) (p : String) : ℚ :=
  if packValues rows p = [] then 0
  else (packValues rows p).sum / ((packValues rows p).length : ℚ)

/-- Embeds the `lifespan_stats` count entry: `count.get(pack, 0)` — 0 for an
absent pack, the group size otherwise. -/
def reported_pack_count (rows : List (String × ℚ)) (p : String) : ℕ :=
  (packValues rows p).length

end Familiar

/-! ## Embedding of the mean helper of src/insurance_web.py -/

namespace InsuranceWeb

/-- Embeds `mean` (lines 45-47): `sum(values) / len(values) if values else 0` —
an empty list silently yields 0, not an error. -/
def mean (values : List ℚ) : ℚ :=
  if values ≠ [] then values.sum / (values.length : ℚ) else 0

end InsuranceWeb


/-! ## Embedding of src/student_analysis.py -/

namespace StudentAnalysis

/-- One generated student row (lines 17-23). -/
structure Student where
  math_grade : ℕ
  absences : ℕ
  mjob : String
  fjob : String
  address : String
deriving DecidableEq

/-- The job levels of line 12. -/
def jobs : List String := ["teacher", "health", "services", "at_home", "other"]

/-- The address levels of line 13. -/
def addresses : List String := ["U", "R"]

/-- Models `random.randint(a, b)`: reads one draw of an abstract stream σ at
position k, reduced into the inclusive range [a, b].  The process-global
Mersenne Twister state is abstracted to the stream position; each `random.*`
call consumes exactly one position. -/
def randint (σ : ℕ → ℕ) (k a b : ℕ) : ℕ := a + σ k % (b - a + 1)

/-- Models `random.choice(xs)`: one draw selects an element. -/
def choice (σ : ℕ → ℕ) (k : ℕ) (xs : List String) : String :=
  xs.getD (σ k % xs.length) ""

/-- One loop iteration of `generate_sample_student_data` (lines 17-23): five
successive draws in source order (math_grade, absences, Mjob, Fjob, address). -/
def mkStudent (σ : ℕ → ℕ) (k : ℕ) : Student :=
  { math_grade := randint σ k 0 20
    absences := randint σ (k + 1) 0 30
    mjob := choice σ (k + 2) jobs
    fjob := choice σ (k + 3) jobs
    address := choice σ (k + 4) addresses }

/-- Embeds `generate_sample_student_data` (lines 10-24) with the RNG state made
explicit: n students generated starting at stream position k, each consuming
five draws (source: n = 100). -/
def generate_sample_student_data (σ : ℕ → ℕ) (k : ℕ) : ℕ → List Student
  | 0 => []
  | n + 1 => mkStudent σ k :: generate_sample_student_data σ (k + 5) n

/-- Embeds the median computation of lines 37-39: sort, then the single middle
element for odd length, the average of the two middle elements for even
length.  (Python would raise an IndexError on an empty list; the embedding
totalises out-of-range indexing with `getD`, and every theorem about it
constrains the length.) -/
def median_of (l : List ℚ) : ℚ :=
  let s := List.insertionSort (· ≤ ·) l
  let n := l.length
  if n % 2 = 0 then (s.getD (n / 2) 0 + s.getD ((n - 1) / 2) 0) / 2
  else s.getD (n / 2) 0

/-- Embeds the absences median of line 91: `sorted(absences)[len(absences)//2]`
— the upper middle element, with no even-length averaging. -/
def absences_median (l : List ℚ) : ℚ :=
  (List.insertionSort (· ≤ ·) l).getD (l.length / 2) 0

/-- One step of the Python count-dict idiom `d[k] = d.get(k, 0) + 1`:
increment in place, or append a new key at the end. -/
def bumpCount {α : Type} [DecidableEq α] (acc : List (α × ℕ)) (x : α) :
    List (α × ℕ) :=
  match acc with
  | [] => [(x, 1)]
  | (y, c) :: rest => if y = x then (y, c + 1) :: rest else (y, c) :: bumpCount rest x

/-- An insertion-ordered counting dict (lines 42-44, 56-65, 68-71). -/
def dict_count {α : Type} [DecidableEq α] (l : List α) : List (α × ℕ) :=
  l.foldl bumpCount []

/-- Python `max(counts, key=counts.get)` over a dict (line 45): the first key in
insertion order attaining the maximal count (`max` keeps the earlier element
on ties). -/
def firstMaxKey (cs : List (ℕ × ℕ)) : ℕ :=
  match cs with
  | [] => 0
  | c :: rest => (rest.foldl (fun best d => if d.2 > best.2 then d else best) c).1

/-- Python `max` over a nonempty list of naturals (totalised with 0). -/
def list_max (l : List ℕ) : ℕ := l.foldl Nat.max (l.headD 0)

/-- Python `min` over a nonempty list of naturals (totalised with its head). -/
def list_min (l : List ℕ) : ℕ := l.foldl Nat.min (l.headD 0)

/-- Deterministic stand-in for the float square root in `variance ** 0.5`
(line 50): a rational approximation through the integer square root at 10⁻⁶
precision.  No claim depends on its value, only on its being a fixed function
of the variance. -/
def ratSqrt (q : ℚ) : ℚ :=
  if q ≤ 0 then 0
  else ((Nat.sqrt (q.num.toNat * q.den * 10 ^ 12)) : ℚ) / ((q.den : ℚ) * 10 ^ 6)

/-- The `summary` entry of the result dict (lines 74-82). -/
structure StudentSummary where
  total_students : ℕ
  mean_grade : ℚ
  median_grade : ℚ
  mode_grade : ℕ
  grade_range : ℕ
  std_grade : ℚ
  mad_grade : ℚ
deriving DecidableEq

/-- The `absences_summary` entry (lines 87-92). -/
structure AbsencesSummary where
  mean : ℚ
  max : ℕ
  min : ℕ
  median : ℚ
deriving DecidableEq

/-- The full result dict of `analyze_students` (lines 73-94). -/
structure StudentRecord where
  summary : StudentSummary
  grade_distribution : List (ℕ × ℕ)
  mjob_distribution : List (String × ℕ)
  fjob_distribution : List (String × ℕ)
  address_distribution : List (String × ℕ)
  absences_summary : AbsencesSummary
  grade_bins : List ℕ
deriving DecidableEq

/-- The pure part of `analyze_students` (lines 31-94): the result record as a
function of the generated student rows.  `round(x, 2)` is
`LinearRegression.pyRound2` (the same Python builtin), the float square root
is `ratSqrt`, dicts are insertion-ordered association lists, and
`dict(sorted(grade_bins.items()))` sorts the bin dict by key. -/
def buildRecord (students : List Student) : StudentRecord :=
  let math_grades := students.map (fun s => s.math_grade)
  let absences := students.map (fun s => s.absences)
  let mean_grade : ℚ :=
    (math_grades.map (fun g : ℕ => (g : ℚ))).sum / (math_grades.length : ℚ)
  let variance : ℚ :=
    (math_grades.map (fun x : ℕ => ((x : ℚ) - mean_grade) ^ 2)).sum /
      (math_grades.length : ℚ)
  let mad : ℚ :=
    (math_grades.map (fun x : ℕ => |(x : ℚ) - mean_grade|)).sum /
      (math_grades.length : ℚ)
  { summary :=
    { total_students := students.length
      mean_grade := LinearRegression.pyRound2 mean_grade
      median_grade := LinearRegression.pyRound2
        (median_of (math_grades.map (fun g : ℕ => (g : ℚ))))
      mode_grade := firstMaxKey (dict_count math_grades)
      grade_range := list_max math_grades - list_min math_grades
      std_grade := LinearRegression.pyRound2 (ratSqrt variance)
      mad_grade := LinearRegression.pyRound2 mad }
    grade_distribution :=
      List.insertionSort (fun a b => a.1 ≤ b.1)
        (dict_count (math_grades.map (fun g => g / 2 * 2)))
    mjob_distribution := dict_count (students.map (fun s => s.mjob))
    fjob_distribution := dict_count (students.map (fun s => s.fjob))
    address_distribution := dict_count (students.map (fun s => s.address))
    absences_summary :=
    { mean := LinearRegression.pyRound2
        ((absences.map (fun a : ℕ => (a : ℚ))).sum / (absences.length : ℚ))
      max := list_max absences
      min := list_min absences
      median := absences_median (absences.map (fun a : ℕ => (a : ℚ))) }
    grade_bins := [0, 2, 4, 6, 8, 10, 12, 14, 16, 18, 20] }

/-- Embeds `analyze_students` (lines 27-94) with the RNG state explicit:
generate 100 students from the current stream position, build the record, and
return it together with the advanced position (100 students × 5 draws) from
which the next call would read. -/
def analyze_students (σ : ℕ → ℕ) (k : ℕ) : StudentRecord × ℕ :=
  (buildRecord (generate_sample_student_data σ k 100), k + 500)

/-- The student row generated when every consumed draw equals v. -/
def mkStudentConst (v : ℕ) : Student :=
  { math_grade := v % 21
    absences := v % 31
    mjob := jobs.getD (v % 5) ""
    fjob := jobs.getD (v % 5) ""
    address := addresses.getD (v % 2) "" }

end StudentAnalysis

/-! ## THEOREMS -/

namespace LinearRegression

/-- Every total error is a sum of absolute values, hence nonnegative. -/
theorem totalErr_nonneg (points : List (ℚ × ℚ)) (p : ℚ × ℚ) :
    0 ≤ totalErr points p := by
  refine List.sum_nonneg ?_
  intro x hx
  obtain ⟨q, _, rfl⟩ := List.mem_map.mp hx
  exact abs_nonneg _

/-- With no points every candidate's total error is zero. -/
theorem totalErr_nil (p : ℚ × ℚ) : totalErr [] p = 0 := rfl

/-- Invariant of the search loop: starting from a state whose recorded error is
the error of its recorded candidate, the fold returns the first candidate (in
enumeration order) whose error is strictly below everything before it; the
result's candidate is the initial one or a member of the list, its recorded
error is the error of its candidate, and that error is minimal. -/
theorem foldl_stepState_spec (points : List (ℚ × ℚ)) :
    ∀ (l : List (ℚ × ℚ)) (st : SearchState),
      st.smallest_error = some (totalErr points (st.best_m, st.best_b)) →
      (((l.foldl (stepState points) st).best_m,
        (l.foldl (stepState points) st).best_b) = (st.best_m, st.best_b) ∨
       ((l.foldl (stepState points) st).best_m,
        (l.foldl (stepState points) st).best_b) ∈ l) ∧
      (l.foldl (stepState points) st).smallest_error =
        some (totalErr points ((l.foldl (stepState points) st).best_m,
          (l.foldl (stepState points) st).best_b)) ∧
      totalErr points ((l.foldl (stepState points) st).best_m,
          (l.foldl (stepState points) st).best_b) ≤
        totalErr points (st.best_m, st.best_b) ∧
      ∀ q ∈ l,
        totalErr points ((l.foldl (stepState points) st).best_m,
          (l.foldl (stepState points) st).best_b) ≤ totalErr points q := by
  intro l
  induction l with
  | nil =>
    intro st he
    refine ⟨Or.inl rfl, he, le_refl _, ?_⟩
    intro q hq
    exact absurd hq (List.not_mem_nil q)
  | cons a tl ih =>
    intro st he
    obtain ⟨bm, bb, so⟩ := st
    simp only at he
    subst he
    by_cases hlt : totalErr points a < totalErr points (bm, bb)
    · have hstep : stepState points ⟨bm, bb, some (totalErr points (bm, bb))⟩ a =
          ⟨a.1, a.2, some (totalErr points a)⟩ := by
        simp [stepState, hlt]
      have he' : (SearchState.mk a.1 a.2 (some (totalErr points a))).smallest_error =
          some (totalErr points ((SearchState.mk a.1 a.2 (some (totalErr points a))).best_m,
            (SearchState.mk a.1 a.2 (some (totalErr points a))).best_b)) := by
        simp
      obtain ⟨hmem, herr, hle, hall⟩ := ih ⟨a.1, a.2, some (totalErr points a)⟩ he'
      rw [List.foldl_cons, hstep]
      refine ⟨?_, herr, ?_, ?_⟩
      · rcases hmem with h | h
        · exact Or.inr (by simp only at h; rw [h]; exact List.mem_cons_self a tl)
        · exact Or.inr (List.mem_cons_of_mem a h)
      · calc totalErr points _ ≤ totalErr points (a.1, a.2) := hle
          _ = totalErr points a := by rw [Prod.mk.eta]
          _ ≤ totalErr points (bm, bb) := le_of_lt hlt
      · intro q hq
        rcases List.mem_cons.mp hq with h | h
        · subst h
          calc totalErr points _ ≤ totalErr points (q.1, q.2) := hle
            _ = totalErr points q := by rw [Prod.mk.eta]
        · exact hall q h
    · have hstep : stepState points ⟨bm, bb, some (totalErr points (bm, bb))⟩ a =
          ⟨bm, bb, some (totalErr points (bm, bb))⟩ := by
        simp [stepState, hlt]
      obtain ⟨hmem, herr, hle, hall⟩ :=
        ih ⟨bm, bb, some (totalErr points (bm, bb))⟩ (by simp)
      rw [List.foldl_cons, hstep]
      refine ⟨?_, herr, hle, ?_⟩
      · rcases hmem with h | h
        · exact Or.inl h
        · exact Or.inr (List.mem_cons_of_mem a h)
      · intro q hq
        rcases List.mem_cons.mp hq with h | h
        · subst h
          exact le_trans hle (not_lt.mp hlt)
        · exact hall q h

/-- Characterisation of `find_best_line` on a nonempty grid: the returned record
is the rounding of some grid candidate achieving the minimum total error. -/
theorem find_best_line_char (points : List (ℚ × ℚ)) (mr br : ℚ × ℚ) (step : ℚ)
    (hne : gridOf (possible_ms mr) (possible_bs br) ≠ []) :
    ∃ p ∈ gridOf (possible_ms mr) (possible_bs br),
      find_best_line points mr br step =
        ⟨pyRound2 p.1, pyRound2 p.2, some (pyRound2 (totalErr points p))⟩ ∧
      ∀ q ∈ gridOf (possible_ms mr) (possible_bs br),
        totalErr points p ≤ totalErr points q := by
  obtain ⟨g, rest, hgrid⟩ := List.exists_cons_of_ne_nil hne
  have hstep0 : stepState points ⟨0, 0, none⟩ g =
      ⟨g.1, g.2, some (totalErr points g)⟩ := by
    simp [stepState]
  obtain ⟨hmem, herr, hle, hall⟩ :=
    foldl_stepState_spec points rest ⟨g.1, g.2, some (totalErr points g)⟩
      (by simp [Prod.mk.eta])
  set r := rest.foldl (stepState points) ⟨g.1, g.2, some (totalErr points g)⟩ with hr
  refine ⟨(r.best_m, r.best_b), ?_, ?_, ?_⟩
  · rw [hgrid]
    rcases hmem with h | h
    · simp only at h
      rw [h, Prod.mk.eta]
      exact List.mem_cons_self g rest
    · exact List.mem_cons_of_mem g h
  · simp only [find_best_line]
    rw [hgrid, List.foldl_cons, hstep0, ← hr, herr]
    rfl
  · intro q hq
    rw [hgrid] at hq
    rcases List.mem_cons.mp hq with h | h
    · subst h
      simpa [Prod.mk.eta] using hle
    · exact hall q h

/-- Truncation `pyInt` is the identity on integer-valued rationals. -/
theorem pyInt_intCast (z : ℤ) : pyInt ((z : ℚ)) = z := by
  unfold pyInt
  split <;> simp

/-- Rounding `roundHalfEven` is the identity on integer-valued rationals. -/
theorem roundHalfEven_intCast (z : ℤ) : roundHalfEven ((z : ℚ)) = z := by
  unfold roundHalfEven
  rw [Int.floor_intCast]
  rw [if_pos (by norm_num)]

/-- Rounding an integer value to two decimal places leaves it unchanged. -/
theorem pyRound2_intCast (z : ℤ) : pyRound2 ((z : ℚ)) = z := by
  have h : (z : ℚ) * 100 = ((100 * z : ℤ) : ℚ) := by push_cast; ring
  rw [pyRound2, h, roundHalfEven_intCast]
  push_cast
  ring

/-- Rounding a grid value `k/10` to two decimal places leaves it unchanged. -/
theorem pyRound2_tenth (k : ℤ) : pyRound2 ((k : ℚ) / 10) = (k : ℚ) / 10 := by
  have h100 : (k : ℚ) / 10 * 100 = ((10 * k : ℤ) : ℚ) := by
    push_cast
    ring
  rw [pyRound2, h100, roundHalfEven_intCast]
  push_cast
  ring

/-- Zero total error on the exact-line points forces the exact line. -/
theorem totalErr_exactLine_eq_zero (m b : ℚ)
    (h : totalErr exactLinePoints (m, b) = 0) : m = 2 ∧ b = 1 := by
  simp only [totalErr, calculate_all_error, calculate_error, get_y,
    exactLinePoints, List.map_cons, List.map_nil, List.sum_cons, List.sum_nil] at h
  have n1 := abs_nonneg (m * 1 + b - 3)
  have n2 := abs_nonneg (m * 2 + b - 5)
  have n3 := abs_nonneg (m * 3 + b - 7)
  have n4 := abs_nonneg (m * 4 + b - 9)
  have n5 := abs_nonneg (m * 5 + b - 11)
  have h1 : |m * 1 + b - 3| = 0 := by linarith
  have h2 : |m * 2 + b - 5| = 0 := by linarith
  have e1 := abs_eq_zero.mp h1
  have e2 := abs_eq_zero.mp h2
  constructor <;> linarith

/-- C1: on the points generated exactly as `y = 2x + 1` for x in {1,2,3,4,5},
with slope range [-10,10], intercept range [-20,20] and step 0.1,
`find_best_line` returns `best_m = 2.0`, `best_b = 1.0` and a
`smallest_error` of 0, and the companion R-squared computation of
`analyze_linear_regression` applied to these points and that line yields 1.0. -/
theorem C1_grid_search_round_trip :
    find_best_line exactLinePoints (-10, 10) (-20, 20) (1/10) =
      ⟨2, 1, some 0⟩ ∧
    r_squared_of exactLinePoints 2 1 = 1 := by
  have hm : (2 : ℚ) ∈ possible_ms (-10, 10) := by
    have h1 : pyInt ((-10 : ℚ) * 10) = -100 := by
      rw [show ((-10 : ℚ) * 10) = ((-100 : ℤ) : ℚ) by norm_num, pyInt_intCast]
    have h2 : pyInt ((10 : ℚ) * 10) = 100 := by
      rw [show ((10 : ℚ) * 10) = ((100 : ℤ) : ℚ) by norm_num, pyInt_intCast]
    have h20 : (20 : ℤ) ∈ pyRangeIncl (-100) 100 := by decide
    unfold possible_ms
    rw [h1, h2]
    simp only [List.mem_map]
    refine ⟨20, h20, ?_⟩
    norm_num
  have hb : (1 : ℚ) ∈ possible_bs (-20, 20) := by
    have h1 : pyInt ((-20 : ℚ) * 10) = -200 := by
      rw [show ((-20 : ℚ) * 10) = ((-200 : ℤ) : ℚ) by norm_num, pyInt_intCast]
    have h2 : pyInt ((20 : ℚ) * 10) = 200 := by
      rw [show ((20 : ℚ) * 10) = ((200 : ℤ) : ℚ) by norm_num, pyInt_intCast]
    have h10 : (10 : ℤ) ∈ pyRangeIncl (-200) 200 := by decide
    unfold possible_bs
    rw [h1, h2]
    simp only [List.mem_map]
    refine ⟨10, h10, ?_⟩
    norm_num
  have hg : ((2 : ℚ), (1 : ℚ)) ∈ gridOf (possible_ms (-10, 10)) (possible_bs (-20, 20)) :=
    List.mem_flatMap.mpr ⟨2, hm, List.mem_map.mpr ⟨1, hb, rfl⟩⟩
  have hne : gridOf (possible_ms (-10, 10)) (possible_bs (-20, 20)) ≠ [] :=
    List.ne_nil_of_mem hg
  have h0 : totalErr exactLinePoints ((2 : ℚ), (1 : ℚ)) = 0 := by
    norm_num [totalErr, calculate_all_error, calculate_error, get_y, exactLinePoints]
  constructor
  · obtain ⟨p, hp, heq, hmin⟩ :=
      find_best_line_char exactLinePoints (-10, 10) (-20, 20) (1/10) hne
    have hple : totalErr exactLinePoints p ≤ 0 := h0 ▸ hmin (2, 1) hg
    have hp0 : totalErr exactLinePoints p = 0 :=
      le_antisymm hple (totalErr_nonneg exactLinePoints p)
    have hp0' : totalErr exactLinePoints (p.1, p.2) = 0 := by
      rwa [Prod.mk.eta]
    obtain ⟨hm2, hb1⟩ := totalErr_exactLine_eq_zero p.1 p.2 hp0'
    have hpp : p = ((2 : ℚ), (1 : ℚ)) := by
      rw [← Prod.mk.eta (p := p), hm2, hb1]
    rw [heq, hpp]
    rw [hpp] at hp0
    rw [hp0]
    have r2 : pyRound2 (2 : ℚ) = 2 := by
      rw [show (2 : ℚ) = ((2 : ℤ) : ℚ) by norm_num, pyRound2_intCast]
    have r1 : pyRound2 (1 : ℚ) = 1 := by
      rw [show (1 : ℚ) = ((1 : ℤ) : ℚ) by norm_num, pyRound2_intCast]
    have r0 : pyRound2 (0 : ℚ) = 0 := by
      rw [show (0 : ℚ) = ((0 : ℤ) : ℚ) by norm_num, pyRound2_intCast]
    rw [r2, r1, r0]
  · norm_num [r_squared_of, get_y, exactLinePoints]

/-- C2: `find_best_line` accepts a `step` argument but never uses it — the
slope candidates for range (0,1) are the eleven values 0, 0.1, ..., 1 of the
hardcoded 0.1 grid, which differ from the spec's `lower, lower+step, ..., upper`
grid for step 0.5, and the full search result is bit-identical for step 0.5 and
step 0.1. -/
theorem C2_step_argument_ignored :
    possible_ms (0, 1) =
      [0, 1/10, 1/5, 3/10, 2/5, 1/2, 3/5, 7/10, 4/5, 9/10, 1] ∧
    spec_step_grid 0 1 (1/2) = [0, 1/2, 1] ∧
    possible_ms (0, 1) ≠ spec_step_grid 0 1 (1/2) ∧
    find_best_line [(0, 0), (1, 1)] (0, 1) (0, 0) (1/2) =
      find_best_line [(0, 0), (1, 1)] (0, 1) (0, 0) (1/10) := by
  have hms : possible_ms (0, 1) =
      [0, 1/10, 1/5, 3/10, 2/5, 1/2, 3/5, 7/10, 4/5, 9/10, 1] := by
    have h1 : pyInt ((0 : ℚ) * 10) = 0 := by
      rw [show ((0 : ℚ) * 10) = ((0 : ℤ) : ℚ) by norm_num, pyInt_intCast]
    have h2 : pyInt ((1 : ℚ) * 10) = 10 := by
      rw [show ((1 : ℚ) * 10) = ((10 : ℤ) : ℚ) by norm_num, pyInt_intCast]
    have hr : pyRangeIncl 0 10 = [0, 1, 2, 3, 4, 5, 6, 7, 8, 9, 10] := by decide
    unfold possible_ms
    rw [h1, h2, hr]
    norm_num
  have hsg : spec_step_grid 0 1 (1/2) = [0, 1/2, 1] := by
    have hfl : ⌊((1 : ℚ) - 0) / (1/2)⌋ = 2 := by norm_num
    unfold spec_step_grid
    rw [hfl]
    have hr : List.range ((2 : ℤ).toNat + 1) = [0, 1, 2] := by decide
    rw [hr]
    norm_num
  refine ⟨hms, hsg, ?_, rfl⟩
  rw [hms, hsg]
  intro h
  have hlen := congrArg List.length h
  simp at hlen

/-- C9 counterexample: called on a single point — fewer than 2 — with small
search ranges, `find_best_line` does not fail: it returns an ordinary fit
result. -/
theorem C9_counterexample_singleton_returns_fit :
    find_best_line [(0, 0)] (0, 0) (0, 0) (1/10) = ⟨0, 0, some 0⟩ := by
  have h0 : pyInt ((0 : ℚ) * 10) = 0 := by
    rw [show ((0 : ℚ) * 10) = ((0 : ℤ) : ℚ) by norm_num, pyInt_intCast]
  have hr : pyRangeIncl 0 0 = [0] := by decide
  have hms : possible_ms (0, 0) = [0] := by
    unfold possible_ms
    rw [h0, hr]
    norm_num
  have hbs : possible_bs (0, 0) = [0] := by
    unfold possible_bs
    rw [h0, hr]
    norm_num
  have r0 : pyRound2 (0 : ℚ) = 0 := by
    rw [show (0 : ℚ) = ((0 : ℤ) : ℚ) by norm_num, pyRound2_intCast]
  simp only [find_best_line, hms, hbs, gridOf]
  norm_num [stepState, totalErr, calculate_all_error, calculate_error, get_y, r0]

/-- C9 amended: `find_best_line` performs no minimum-size validation: on any
list of fewer than 2 points (and any ranges whose candidate grids are
nonempty) it returns a fit result with a finite smallest error rather than
failing. -/
theorem C9_no_input_size_validation (points : List (ℚ × ℚ)) (mr br : ℚ × ℚ)
    (step : ℚ) (hlen : points.length < 2)
    (hm : possible_ms mr ≠ []) (hb : possible_bs br ≠ []) :
    ∃ e, (find_best_line points mr br step).smallest_error = some e := by
  obtain ⟨m0, ms', hms⟩ := List.exists_cons_of_ne_nil hm
  obtain ⟨b0, bs', hbs⟩ := List.exists_cons_of_ne_nil hb
  have hg : (m0, b0) ∈ gridOf (possible_ms mr) (possible_bs br) := by
    rw [hms, hbs]
    exact List.mem_flatMap.mpr
      ⟨m0, List.mem_cons_self _ _, List.mem_map.mpr ⟨b0, List.mem_cons_self _ _, rfl⟩⟩
  obtain ⟨p, hp, heq, _⟩ := find_best_line_char points mr br step (List.ne_nil_of_mem hg)
  exact ⟨pyRound2 (totalErr points p), by rw [heq]⟩

/-- Rounding zero to two decimal places gives zero. -/
theorem pyRound2_zero : pyRound2 (0 : ℚ) = 0 := by
  rw [show (0 : ℚ) = ((0 : ℤ) : ℚ) by norm_num, pyRound2_intCast]

/-- With no points, a search state with recorded error 0 is never displaced. -/
theorem foldl_stepState_nil_points :
    ∀ (l : List (ℚ × ℚ)) (st : SearchState), st.smallest_error = some 0 →
      l.foldl (stepState []) st = st := by
  intro l
  induction l with
  | nil => intro st _; rfl
  | cons a tl ih =>
    intro st he
    obtain ⟨bm, bb, so⟩ := st
    simp only at he
    subst he
    have hstep : stepState [] ⟨bm, bb, some 0⟩ a = ⟨bm, bb, some 0⟩ := by
      show (if totalErr [] a < 0
          then SearchState.mk a.1 a.2 (some (totalErr [] a))
          else SearchState.mk bm bb (some 0)) = SearchState.mk bm bb (some 0)
      rw [totalErr_nil, if_neg (lt_irrefl (0 : ℚ))]
    rw [List.foldl_cons, hstep]
    exact ih ⟨bm, bb, some 0⟩ rfl

/-- Elements of an inclusive integer range are bounded below by its left
endpoint, which is also its first element when the range is nonempty. -/
theorem pyRangeIncl_head_bound (a b : ℤ) (h : pyRangeIncl a b ≠ []) :
    (pyRangeIncl a b).headI = a ∧ ∀ k ∈ pyRangeIncl a b, a ≤ k := by
  constructor
  · have hn : (b - a + 1).toNat ≠ 0 := by
      intro h0
      apply h
      unfold pyRangeIncl
      rw [h0]
      rfl
    obtain ⟨n, hn'⟩ := Nat.exists_eq_succ_of_ne_zero hn
    unfold pyRangeIncl
    rw [hn', List.range_succ_eq_map]
    simp
  · intro k hk
    obtain ⟨i, _, rfl⟩ := List.mem_map.mp hk
    omega

/-- The first slope candidate is unchanged by rounding and is the lowest
candidate (the candidate list is built in ascending order). -/
theorem candidateList_head_lowest (a b : ℤ)
    (h : (pyRangeIncl a b).map (fun m : ℤ => (m : ℚ) / 10) ≠ []) :
    pyRound2 (((pyRangeIncl a b).map (fun m : ℤ => (m : ℚ) / 10)).headI) =
      ((pyRangeIncl a b).map (fun m : ℤ => (m : ℚ) / 10)).headI ∧
    ∀ x ∈ (pyRangeIncl a b).map (fun m : ℤ => (m : ℚ) / 10),
      ((pyRangeIncl a b).map (fun m : ℤ => (m : ℚ) / 10)).headI ≤ x := by
  have hr : pyRangeIncl a b ≠ [] := by
    intro h0
    apply h
    rw [h0]
    rfl
  obtain ⟨hhead, hle⟩ := pyRangeIncl_head_bound a b hr
  obtain ⟨k0, rest, hk⟩ := List.exists_cons_of_ne_nil hr
  have hk0 : k0 = a := by rw [hk] at hhead; exact hhead
  have hmap : (pyRangeIncl a b).map (fun m : ℤ => (m : ℚ) / 10) =
      ((k0 : ℚ) / 10) :: rest.map (fun m : ℤ => (m : ℚ) / 10) := by
    rw [hk]
    rfl
  constructor
  · rw [hmap]
    exact pyRound2_tenth k0
  · intro x hx
    obtain ⟨k, hkmem, rfl⟩ := List.mem_map.mp hx
    rw [hmap]
    show (k0 : ℚ) / 10 ≤ (k : ℚ) / 10
    have hak : a ≤ k := hle k hkmem
    rw [hk0]
    exact (div_le_div_right (by norm_num)).mpr (by exact_mod_cast hak)

/-- The slope-candidate builder applied to any range: its head is unchanged by
rounding and is the least candidate. -/
theorem possible_ms_head_lowest (r : ℚ × ℚ) (h : possible_ms r ≠ []) :
    pyRound2 ((possible_ms r).headI) = (possible_ms r).headI ∧
    ∀ x ∈ possible_ms r, (possible_ms r).headI ≤ x := by
  unfold possible_ms at h ⊢
  exact candidateList_head_lowest _ _ h

/-- The intercept-candidate builder coincides with the slope-candidate builder. -/
theorem possible_bs_eq_possible_ms (r : ℚ × ℚ) : possible_bs r = possible_ms r := rfl

/-- C10: on an empty list of points `find_best_line` returns without failing,
with `best_m` the first (and lowest) grid slope, `best_b` the first (and
lowest) grid intercept, and `smallest_error` 0: every candidate has total
error 0 and the strict-less-than comparison keeps the first one. -/
theorem C10_empty_points_first_candidate (mr br : ℚ × ℚ) (step : ℚ)
    (hm : possible_ms mr ≠ []) (hb : possible_bs br ≠ []) :
    find_best_line [] mr br step =
      ⟨(possible_ms mr).headI, (possible_bs br).headI, some 0⟩ ∧
    (∀ x ∈ possible_ms mr, (possible_ms mr).headI ≤ x) ∧
    (∀ x ∈ possible_bs br, (possible_bs br).headI ≤ x) := by
  have hmlow := possible_ms_head_lowest mr hm
  have hblow' := possible_ms_head_lowest br ((possible_bs_eq_possible_ms br) ▸ hb)
  have hblow : pyRound2 ((possible_bs br).headI) = (possible_bs br).headI ∧
      ∀ x ∈ possible_bs br, (possible_bs br).headI ≤ x := by
    rw [possible_bs_eq_possible_ms br]
    exact hblow'
  obtain ⟨m0, ms', hms⟩ := List.exists_cons_of_ne_nil hm
  obtain ⟨b0, bs', hbs⟩ := List.exists_cons_of_ne_nil hb
  have hgrid : gridOf (possible_ms mr) (possible_bs br) =
      (m0, b0) :: (bs'.map (fun b => (m0, b)) ++
        ms'.flatMap (fun m => (b0 :: bs').map (fun b => (m, b)))) := by
    rw [hms, hbs]
    rfl
  have hfold : (gridOf (possible_ms mr) (possible_bs br)).foldl
      (stepState []) ⟨0, 0, none⟩ = ⟨m0, b0, some 0⟩ := by
    rw [hgrid, List.foldl_cons]
    have hstep : stepState [] ⟨0, 0, none⟩ (m0, b0) = ⟨m0, b0, some 0⟩ := rfl
    rw [hstep]
    exact foldl_stepState_nil_points _ _ rfl
  refine ⟨?_, hmlow.2, hblow.2⟩
  have hm0 : pyRound2 m0 = m0 := by
    have h1 := hmlow.1
    rw [hms] at h1
    exact h1
  have hb0 : pyRound2 b0 = b0 := by
    have h1 := hblow.1
    rw [hbs] at h1
    exact h1
  simp only [find_best_line, hfold]
  rw [hms, hbs]
  show FitResult.mk (pyRound2 m0) (pyRound2 b0) (some (pyRound2 0)) =
    FitResult.mk m0 b0 (some 0)
  rw [hm0, hb0, pyRound2_zero]

/-- The default slope range yields a nonempty candidate list. -/
theorem possible_ms_default_ne_nil : possible_ms (-10, 10) ≠ [] := by
  have h1 : pyInt ((-10 : ℚ) * 10) = -100 := by
    rw [show ((-10 : ℚ) * 10) = ((-100 : ℤ) : ℚ) by norm_num, pyInt_intCast]
  have h2 : pyInt ((10 : ℚ) * 10) = 100 := by
    rw [show ((10 : ℚ) * 10) = ((100 : ℤ) : ℚ) by norm_num, pyInt_intCast]
  have hr : pyRangeIncl (-100) 100 ≠ [] := by decide
  unfold possible_ms
  rw [h1, h2]
  simpa using hr

/-- The default intercept range yields a nonempty candidate list. -/
theorem possible_bs_default_ne_nil : possible_bs (-20, 20) ≠ [] := by
  have h1 : pyInt ((-20 : ℚ) * 10) = -200 := by
    rw [show ((-20 : ℚ) * 10) = ((-200 : ℤ) : ℚ) by norm_num, pyInt_intCast]
  have h2 : pyInt ((20 : ℚ) * 10) = 200 := by
    rw [show ((20 : ℚ) * 10) = ((200 : ℤ) : ℚ) by norm_num, pyInt_intCast]
  have hr : pyRangeIncl (-200) 200 ≠ [] := by decide
  unfold possible_bs
  rw [h1, h2]
  simpa using hr

/-- C10 witness: the empty-points call with the source's default ranges. -/
theorem C10_empty_points_first_candidate_witness :
    find_best_line [] (-10, 10) (-20, 20) (1/10) =
      ⟨(possible_ms (-10, 10)).headI, (possible_bs (-20, 20)).headI, some 0⟩ :=
  (C10_empty_points_first_candidate (-10, 10) (-20, 20) (1/10)
    possible_ms_default_ne_nil possible_bs_default_ne_nil).1

/-- C9 witness: a concrete singleton-point call on which the no-validation
theorem applies. -/
theorem C9_no_input_size_validation_witness :
    ∃ e, (find_best_line [((0 : ℚ), (0 : ℚ))] (0, 0) (0, 0) (1/10)).smallest_error = some e :=
  C9_no_input_size_validation [(0, 0)] (0, 0) (0, 0) (1/10)
    (by norm_num)
    (by
      have h0 : pyInt ((0 : ℚ) * 10) = 0 := by
        rw [show ((0 : ℚ) * 10) = ((0 : ℤ) : ℚ) by norm_num, pyInt_intCast]
      unfold possible_ms
      rw [h0]
      simp [pyRangeIncl])
    (by
      have h0 : pyInt ((0 : ℚ) * 10) = 0 := by
        rw [show ((0 : ℚ) * 10) = ((0 : ℤ) : ℚ) by norm_num, pyInt_intCast]
      unfold possible_bs
      rw [h0]
      simp [pyRangeIncl])

end LinearRegression

/-- Evaluation of the scipy model on a 2×2 table with no zero expected cell:
the result is the Yates-corrected statistic with one degree of freedom. -/
theorem chi2_contingency_2x2 (t : List (List ℚ))
    (h2 : t.length = 2) (hc2 : Scipy.numCols t = 2)
    (hexp : ∀ i < 2, ∀ j < 2, Scipy.expectedCell t i j ≠ 0) :
    Scipy.chi2_contingency t = some (Scipy.yatesChi2 t, 1) := by
  unfold Scipy.chi2_contingency
  rw [h2, hc2]
  rw [if_neg (by norm_num)]
  rw [if_neg (by
    simp only [List.any_eq_true, List.mem_range, decide_eq_true_eq, not_exists]
    rintro i ⟨hi, j, hj, hz⟩
    exact hexp i hi j hj hz)]
  norm_num

/-- Evaluation of the scipy model on a 2×2 table with a zero expected cell:
scipy raises (modelled as `none`). -/
theorem chi2_contingency_2x2_degenerate (t : List (List ℚ))
    (h2 : t.length = 2) (hc2 : Scipy.numCols t = 2) (i j : ℕ)
    (hi : i < 2) (hj : j < 2) (hz : Scipy.expectedCell t i j = 0) :
    Scipy.chi2_contingency t = none := by
  unfold Scipy.chi2_contingency
  rw [h2, hc2]
  rw [if_neg (by norm_num)]
  rw [if_pos (by
    simp only [List.any_eq_true, List.mem_range, decide_eq_true_eq]
    exact ⟨i, hi, j, hj, hz⟩)]

/-- C4 counterexample: on the 2×2 table [[10,20],[20,10]] the code (scipy with
its default continuity correction) reports statistic 27/5, while the spec's
formula Σ (observed − expected)²/expected gives 20/3 — the claimed exact
formula does not hold for 2×2 tables such as the A/B-test table. -/
theorem C4_counterexample_2x2_yates :
    Scipy.chi2_contingency [[10, 20], [20, 10]] = some (27/5, 1) ∧
    Scipy.spec_chi_square_stat [[10, 20], [20, 10]] = 20/3 ∧
    ((27 : ℚ)/5) ≠ 20/3 := by
  have hrange2 : List.range 2 = [0, 1] := by decide
  have he : ∀ i < 2, ∀ j < 2,
      Scipy.expectedCell [[(10 : ℚ), 20], [20, 10]] i j = 15 := by
    intro i hi j hj
    interval_cases i <;> interval_cases j <;>
      norm_num [Scipy.expectedCell, Scipy.rowSums, Scipy.colSum, Scipy.grandTotal]
  refine ⟨?_, ?_, by norm_num⟩
  · have hyates : Scipy.yatesChi2 [[(10 : ℚ), 20], [20, 10]] = 27/5 := by
      unfold Scipy.yatesChi2
      rw [show ([[(10 : ℚ), 20], [20, 10]] : List (List ℚ)).length = 2 from rfl]
      rw [show Scipy.numCols [[(10 : ℚ), 20], [20, 10]] = 2 from rfl, hrange2]
      simp only [List.map_cons, List.map_nil, List.sum_cons, List.sum_nil]
      rw [he 0 (by norm_num) 0 (by norm_num), he 0 (by norm_num) 1 (by norm_num),
        he 1 (by norm_num) 0 (by norm_num), he 1 (by norm_num) 1 (by norm_num)]
      norm_num [Scipy.obsCell, Scipy.pySign]
    rw [chi2_contingency_2x2 [[(10 : ℚ), 20], [20, 10]] rfl rfl
      (fun i hi j hj => by rw [he i hi j hj]; norm_num), hyates]
  · unfold Scipy.spec_chi_square_stat
    rw [show ([[(10 : ℚ), 20], [20, 10]] : List (List ℚ)).length = 2 from rfl]
    rw [show Scipy.numCols [[(10 : ℚ), 20], [20, 10]] = 2 from rfl, hrange2]
    simp only [List.map_cons, List.map_nil, List.sum_cons, List.sum_nil]
    rw [he 0 (by norm_num) 0 (by norm_num), he 0 (by norm_num) 1 (by norm_num),
      he 1 (by norm_num) 0 (by norm_num), he 1 (by norm_num) 1 (by norm_num)]
    norm_num [Scipy.obsCell]

/-- C4 amended: for every rectangular table with at least 2 rows and 2 columns
and no zero expected cell, the code reports dof = (rows−1)(cols−1), and
whenever that dof is not 1 (so scipy applies no continuity correction) the
reported statistic is exactly the spec's Σ (observed − expected)²/expected;
for dof = 1 (2×2 tables) scipy instead applies the Yates continuity
correction, so the plain formula does not hold in general. -/
theorem C4_chi_square_formula_and_dof (t : List (List ℚ))
    (hr : 2 ≤ t.length) (hc : 2 ≤ Scipy.numCols t)
    (hexp : ∀ i < t.length, ∀ j < Scipy.numCols t, Scipy.expectedCell t i j ≠ 0) :
    (∃ s, Scipy.chi2_contingency t =
      some (s, (t.length - 1) * (Scipy.numCols t - 1))) ∧
    ((t.length - 1) * (Scipy.numCols t - 1) ≠ 1 →
      Scipy.chi2_contingency t =
        some (Scipy.spec_chi_square_stat t, (t.length - 1) * (Scipy.numCols t - 1))) := by
  have hany : ¬ ((List.range t.length).any (fun i =>
      (List.range (Scipy.numCols t)).any
        (fun j => decide (Scipy.expectedCell t i j = 0))) = true) := by
    simp only [List.any_eq_true, List.mem_range, decide_eq_true_eq, not_exists]
    rintro i ⟨hi, j, hj, hz⟩
    exact hexp i hi j hj hz
  have hne : ¬ (t.length = 0 ∨ Scipy.numCols t = 0) := by
    rintro (h | h) <;> omega
  have hdz : (t.length - 1) * (Scipy.numCols t - 1) ≠ 0 :=
    Nat.pos_iff_ne_zero.mp (Nat.mul_pos (by omega) (by omega))
  constructor
  · by_cases hd1 : (t.length - 1) * (Scipy.numCols t - 1) = 1
    · refine ⟨Scipy.yatesChi2 t, ?_⟩
      unfold Scipy.chi2_contingency
      rw [if_neg hne, if_neg hany]
      simp only [if_neg hdz, if_pos hd1]
    · refine ⟨Scipy.plainChi2 t, ?_⟩
      unfold Scipy.chi2_contingency
      rw [if_neg hne, if_neg hany]
      simp only [if_neg hdz, if_neg hd1]
  · intro hdof
    unfold Scipy.chi2_contingency
    rw [if_neg hne, if_neg hany]
    simp only [if_neg hdz, if_neg hdof]
    rfl

/-- C4 witness: a 2×3 table (dof = 2, no correction) on which the amended
theorem applies: the reported statistic is the spec formula and dof is 2. -/
theorem C4_chi_square_formula_and_dof_witness :
    Scipy.chi2_contingency [[10, 30, 10], [10, 30, 10]] =
      some (Scipy.spec_chi_square_stat [[10, 30, 10], [10, 30, 10]], 2) :=
  (C4_chi_square_formula_and_dof [[10, 30, 10], [10, 30, 10]]
    (by norm_num)
    (by norm_num [Scipy.numCols])
    (by
      intro i hi j hj
      simp only [show ([[(10 : ℚ), 30, 10], [10, 30, 10]] : List (List ℚ)).length = 2
        from rfl] at hi
      simp only [show Scipy.numCols [[(10 : ℚ), 30, 10], [10, 30, 10]] = 3 from rfl] at hj
      interval_cases i <;> interval_cases j <;>
        norm_num [Scipy.expectedCell, Scipy.rowSums, Scipy.colSum, Scipy.grandTotal])).2
    (by norm_num [Scipy.numCols])

/-- Pulling a `filterMap` out of a `flatMap` of per-index `filterMap`s. -/
theorem flatMap_filterMap_pair {β : Type} (l : List ℕ) (g : ℕ → List ℕ)
    (F : ℕ × ℕ → Option β) :
    (l.flatMap fun i => (g i).filterMap (fun j => F (i, j))) =
      (l.flatMap fun i => (g i).map (fun j => (i, j))).filterMap F := by
  induction l with
  | nil => rfl
  | cons a tl ih =>
    rw [List.flatMap_cons, List.flatMap_cons, List.filterMap_append, ih]
    congr 1
    rw [List.filterMap_map]
    rfl

/-- C5 amended: the chi-square loop of `analyze_biodiversity` never propagates
an error — it always returns, with exactly one entry per visited index pair
whose 2×2 table `chi2_contingency` accepts, in loop order; a pair whose table
is degenerate (scipy raises) is silently skipped by the bare `except: pass`,
its entry simply omitted. -/
theorem C5_except_pass_skips_degenerate_pairs (rows : List (String × ℕ × ℕ)) :
    Biodiversity.chi_square_results rows =
      (Biodiversity.pairIndices rows.length).filterMap (fun ij =>
        (Scipy.chi2_contingency (Biodiversity.pairTable rows ij.1 ij.2)).map
          (fun r => (Biodiversity.pairKey rows ij.1 ij.2, r))) := by
  unfold Biodiversity.chi_square_results Biodiversity.pairIndices
  exact flatMap_filterMap_pair
    (Biodiversity.pyRange 0 (min 3 rows.length))
    (fun i => Biodiversity.pyRange (i + 1) (min 4 rows.length))
    (fun ij => (Scipy.chi2_contingency (Biodiversity.pairTable rows ij.1 ij.2)).map
      (fun r => (Biodiversity.pairKey rows ij.1 ij.2, r)))

/-- C5 counterexample: with pivot rows Amphibian (0, 10), Bird (0, 20),
Fish (5, 5), the Amphibian/Bird table [[0,10],[0,20]] has a zero column, so
its expected cells are zero and scipy raises; the loop swallows the error and
returns normally with only the other two pairs' entries — no
DegenerateTableError (or any error) reaches the caller, the Amphibian_vs_Bird
record is simply omitted. -/
theorem C5_counterexample_degenerate_pair_omitted :
    (Biodiversity.chi_square_results
        [("Amphibian", 0, 10), ("Bird", 0, 20), ("Fish", 5, 5)]).map Prod.fst =
      ["Amphibian_vs_Fish", "Bird_vs_Fish"] := by
  have h01 : Scipy.chi2_contingency (Biodiversity.pairTable
      [("Amphibian", 0, 10), ("Bird", 0, 20), ("Fish", 5, 5)] 0 1) = none := by
    refine chi2_contingency_2x2_degenerate (Biodiversity.pairTable
      [("Amphibian", 0, 10), ("Bird", 0, 20), ("Fish", 5, 5)] 0 1)
      rfl rfl 0 0 (by norm_num) (by norm_num) ?_
    norm_num [Scipy.expectedCell, Scipy.rowSums, Scipy.colSum, Scipy.grandTotal,
      Biodiversity.pairTable, Biodiversity.emptyRow]
  have h02 : Scipy.chi2_contingency (Biodiversity.pairTable
      [("Amphibian", 0, 10), ("Bird", 0, 20), ("Fish", 5, 5)] 0 2) =
      some (Scipy.yatesChi2 (Biodiversity.pairTable
        [("Amphibian", 0, 10), ("Bird", 0, 20), ("Fish", 5, 5)] 0 2), 1) := by
    refine chi2_contingency_2x2 (Biodiversity.pairTable
      [("Amphibian", 0, 10), ("Bird", 0, 20), ("Fish", 5, 5)] 0 2) rfl rfl ?_
    intro i hi j hj
    interval_cases i <;> interval_cases j <;>
      norm_num [Scipy.expectedCell, Scipy.rowSums, Scipy.colSum, Scipy.grandTotal,
        Biodiversity.pairTable, Biodiversity.emptyRow]
  have h12 : Scipy.chi2_contingency (Biodiversity.pairTable
      [("Amphibian", 0, 10), ("Bird", 0, 20), ("Fish", 5, 5)] 1 2) =
      some (Scipy.yatesChi2 (Biodiversity.pairTable
        [("Amphibian", 0, 10), ("Bird", 0, 20), ("Fish", 5, 5)] 1 2), 1) := by
    refine chi2_contingency_2x2 (Biodiversity.pairTable
      [("Amphibian", 0, 10), ("Bird", 0, 20), ("Fish", 5, 5)] 1 2) rfl rfl ?_
    intro i hi j hj
    interval_cases i <;> interval_cases j <;>
      norm_num [Scipy.expectedCell, Scipy.rowSums, Scipy.colSum, Scipy.grandTotal,
        Biodiversity.pairTable, Biodiversity.emptyRow]
  unfold Biodiversity.chi_square_results
  rw [show min 3 ([("Amphibian", 0, 10), ("Bird", 0, 20), ("Fish", 5, 5)] :
      List (String × ℕ × ℕ)).length = 3 from rfl]
  rw [show min 4 ([("Amphibian", 0, 10), ("Bird", 0, 20), ("Fish", 5, 5)] :
      List (String × ℕ × ℕ)).length = 3 from rfl]
  rw [show Biodiversity.pyRange 0 3 = [0, 1, 2] from by decide]
  simp only [List.flatMap_cons, List.flatMap_nil]
  rw [show Biodiversity.pyRange (0 + 1) 3 = [1, 2] from by decide]
  rw [show Biodiversity.pyRange (1 + 1) 3 = [2] from by decide]
  rw [show Biodiversity.pyRange (2 + 1) 3 = ([] : List ℕ) from by decide]
  simp only [List.filterMap_cons, List.filterMap_nil, List.append_nil,
    h01, h02, h12, Option.map_none', Option.map_some']
  rfl

/-- C6 counterexample: the lifespan two-sample test called with a sample of
size 1 does not fail — it returns an ordinary result record whose statistic
and p-value are NaN and whose significance flag is False. -/
theorem C6_counterexample_returns_nan_record :
    Familiar.lifespan_test (fun _ _ => 0) (fun _ _ => 0) [75] [74, 76] =
      ⟨Familiar.PyFloat.nan, Familiar.PyFloat.nan, false⟩ := by
  unfold Familiar.lifespan_test Familiar.ttest_ind
  rw [if_pos (Or.inl (by norm_num))]
  rfl

/-- C6 amended: `analyze_familiar` performs no sample-size validation: for
every pair of samples where at least one has fewer than 2 observations, the
lifespan test silently returns the record (t = NaN, p = NaN,
significant = False) — scipy's `ttest_ind` produces NaN rather than raising,
and no InsufficientDataError exists in the code. -/
theorem C6_no_size_check_returns_nan (tfun pfun : List ℚ → List ℚ → ℚ)
    (vein artery : List ℚ) (h : vein.length < 2 ∨ artery.length < 2) :
    Familiar.lifespan_test tfun pfun vein artery =
      ⟨Familiar.PyFloat.nan, Familiar.PyFloat.nan, false⟩ := by
  unfold Familiar.lifespan_test Familiar.ttest_ind
  rw [if_pos h]
  rfl

/-- C6 witness: the no-size-check theorem applied to a concrete size-0 and
size-2 sample pair. -/
theorem C6_no_size_check_returns_nan_witness :
    Familiar.lifespan_test (fun _ _ => 1) (fun _ _ => 1) [] [70, 80] =
      ⟨Familiar.PyFloat.nan, Familiar.PyFloat.nan, false⟩ :=
  C6_no_size_check_returns_nan (fun _ _ => 1) (fun _ _ => 1) [] [70, 80]
    (Or.inl (by norm_num))

/-- C7 counterexample: the insurance mean of an empty list is silently 0 — a
valid-looking default, not a reported error. -/
theorem C7_counterexample_mean_empty_zero : InsuranceWeb.mean [] = 0 := by
  unfold InsuranceWeb.mean
  rw [if_neg (by simp)]

/-- C7 amended: statistics over empty groups are silently defaulted to 0, not
reported as errors: `insurance_web.mean` returns 0 on an empty list, and
`analyze_familiar` reports mean 0 and count 0 for a pack with no rows (via
`.get(pack, 0)`). -/
theorem C7_empty_group_silent_zero :
    InsuranceWeb.mean [] = 0 ∧
    ∀ rows : List (String × ℚ), Familiar.packValues rows "vein" = [] →
      Familiar.reported_pack_mean rows "vein" = 0 ∧
      Familiar.reported_pack_count rows "vein" = 0 := by
  constructor
  · unfold InsuranceWeb.mean
    rw [if_neg (by simp)]
  · intro rows h
    constructor
    · unfold Familiar.reported_pack_mean
      rw [if_pos h]
    · unfold Familiar.reported_pack_count
      rw [h]
      rfl

/-- C7 witness: a dataset whose only pack is artery, so the vein group is
empty and is reported as mean 0, count 0. -/
theorem C7_empty_group_silent_zero_witness :
    Familiar.packValues [("artery", (75 : ℚ))] "vein" = [] ∧
    Familiar.reported_pack_mean [("artery", (75 : ℚ))] "vein" = 0 ∧
    Familiar.reported_pack_count [("artery", (75 : ℚ))] "vein" = 0 := by
  have h : Familiar.packValues [("artery", (75 : ℚ))] "vein" = [] := by
    simp [Familiar.packValues]
  exact ⟨h, (C7_empty_group_silent_zero.2 [("artery", 75)] h).1,
    (C7_empty_group_silent_zero.2 [("artery", 75)] h).2⟩

/-- The sorted permutation in a median statement is exactly the insertion sort
the engine computes. -/
theorem sorted_perm_eq_insertionSort (l t : List ℚ)
    (hs : t.Sorted (· ≤ ·)) (hp : t.Perm l) :
    t = List.insertionSort (· ≤ ·) l :=
  List.eq_of_perm_of_sorted
    (hp.trans (List.perm_insertionSort (· ≤ ·) l).symm) hs
    (List.sorted_insertionSort (· ≤ ·) l)

/-- C3 amended: for every sample and every sorted rearrangement t of it, the
math-grade median of lines 37-39 is the middle order statistic for odd length
and the average of the two middle order statistics for even length ≥ 2 — but
the absences-summary median of line 91 is always the single upper-middle order
statistic t[n/2], with no even-length averaging. -/
theorem C3_median_order_statistics (l t : List ℚ)
    (hs : t.Sorted (· ≤ ·)) (hp : t.Perm l) :
    (l.length % 2 = 1 →
      StudentAnalysis.median_of l = t.getD (l.length / 2) 0) ∧
    (l.length % 2 = 0 → 2 ≤ l.length →
      StudentAnalysis.median_of l =
        (t.getD (l.length / 2 - 1) 0 + t.getD (l.length / 2) 0) / 2) ∧
    StudentAnalysis.absences_median l = t.getD (l.length / 2) 0 := by
  have ht : t = List.insertionSort (· ≤ ·) l :=
    sorted_perm_eq_insertionSort l t hs hp
  subst ht
  refine ⟨?_, ?_, ?_⟩
  · intro hodd
    unfold StudentAnalysis.median_of
    rw [if_neg (by omega)]
  · intro heven hlen
    unfold StudentAnalysis.median_of
    rw [if_pos heven]
    rw [show (l.length - 1) / 2 = l.length / 2 - 1 by omega]
    ring
  · rfl

/-- C3 witness: an odd-length sample equal to its own sorted rearrangement,
on which the amended median theorem applies. -/
theorem C3_median_order_statistics_witness :
    ([(1 : ℚ), 2, 3]).Sorted (· ≤ ·) ∧
    StudentAnalysis.median_of [(1 : ℚ), 2, 3] = ([(1 : ℚ), 2, 3]).getD 1 0 ∧
    StudentAnalysis.absences_median [(1 : ℚ), 2, 3] = ([(1 : ℚ), 2, 3]).getD 1 0 := by
  have hs : ([(1 : ℚ), 2, 3]).Sorted (· ≤ ·) := by
    norm_num [List.sorted_cons]
  obtain ⟨h1, _, h3⟩ :=
    C3_median_order_statistics [(1 : ℚ), 2, 3] [(1 : ℚ), 2, 3] hs (List.Perm.refl _)
  exact ⟨hs, h1 rfl, h3⟩

/-- A constant list is sorted. -/
theorem sorted_replicate_le (n : ℕ) (a : ℚ) :
    (List.replicate n a).Sorted (· ≤ ·) := by
  induction n with
  | zero => exact List.sorted_nil
  | succ m ih =>
    rw [List.replicate_succ, List.sorted_cons]
    refine ⟨?_, ih⟩
    intro b hb
    rw [List.eq_of_mem_replicate hb]

/-- C3 counterexample: on the even-length sample of fifty 0s followed by fifty
1s (already sorted), the absences-summary median reported by the engine is 1 —
the upper middle order statistic — while the average of the two middle order
statistics is 1/2. -/
theorem C3_counterexample_absences_median_even :
    StudentAnalysis.absences_median
        (List.replicate 50 (0 : ℚ) ++ List.replicate 50 1) = 1 ∧
    ((List.replicate 50 (0 : ℚ) ++ List.replicate 50 1).getD 49 0 +
      (List.replicate 50 (0 : ℚ) ++ List.replicate 50 1).getD 50 0) / 2 = 1 / 2 ∧
    (List.replicate 50 (0 : ℚ) ++ List.replicate 50 1).Sorted (· ≤ ·) ∧
    (1 : ℚ) ≠ 1 / 2 := by
  have hsorted : (List.replicate 50 (0 : ℚ) ++ List.replicate 50 1).Sorted (· ≤ ·) := by
    rw [List.Sorted, List.pairwise_append]
    refine ⟨sorted_replicate_le 50 0, sorted_replicate_le 50 1, ?_⟩
    intro x hx y hy
    rw [List.eq_of_mem_replicate hx, List.eq_of_mem_replicate hy]
    norm_num
  have hlen : (List.replicate 50 (0 : ℚ) ++ List.replicate 50 1).length = 100 := by
    simp
  have h50 : (List.replicate 50 (0 : ℚ) ++ List.replicate 50 1).getD 50 0 = 1 := by
    rw [List.getD_append_right _ _ _ _ (by simp)]
    simp
  have h49 : (List.replicate 50 (0 : ℚ) ++ List.replicate 50 1).getD 49 0 = 0 := by
    rw [List.getD_append _ _ _ _ (by simp)]
    simp
  refine ⟨?_, by rw [h49, h50]; norm_num, hsorted, by norm_num⟩
  unfold StudentAnalysis.absences_median
  rw [hsorted.insertionSort_eq, hlen]
  rw [show (100 : ℕ) / 2 = 50 from rfl]
  exact h50

/-- Students generated from streams that agree on the consumed positions are
equal. -/
theorem generate_eq_of_agreeing_draws (σ σ' : ℕ → ℕ) :
    ∀ (n k : ℕ), (∀ i, i < 5 * n → σ (k + i) = σ' (k + i)) →
      StudentAnalysis.generate_sample_student_data σ k n =
        StudentAnalysis.generate_sample_student_data σ' k n := by
  intro n
  induction n with
  | zero => intro k _; rfl
  | succ m ih =>
    intro k h
    have e0 : σ k = σ' k := by
      have := h 0 (by omega)
      simpa using this
    have e1 : σ (k + 1) = σ' (k + 1) := h 1 (by omega)
    have e2 : σ (k + 2) = σ' (k + 2) := h 2 (by omega)
    have e3 : σ (k + 3) = σ' (k + 3) := h 3 (by omega)
    have e4 : σ (k + 4) = σ' (k + 4) := h 4 (by omega)
    unfold StudentAnalysis.generate_sample_student_data
    rw [show StudentAnalysis.mkStudent σ k = StudentAnalysis.mkStudent σ' k by
      unfold StudentAnalysis.mkStudent StudentAnalysis.randint StudentAnalysis.choice
      rw [e0, e1, e2, e3, e4]]
    rw [ih (k + 5) (fun i hi => by
      have := h (5 + i) (by omega)
      rw [show k + 5 + i = k + (5 + i) by omega]
      exact this)]

/-- C8 amended, determinism part: `analyze_students` is a deterministic
function of the RNG draws it consumes — two runs whose streams agree on the
500 consumed positions produce identical result records and identical
advanced states.  (The pure components are deterministic functions of their
explicit arguments outright.) -/
theorem C8_analyze_students_prefix_determinism (σ σ' : ℕ → ℕ) (k : ℕ)
    (h : ∀ i, i < 500 → σ (k + i) = σ' (k + i)) :
    StudentAnalysis.analyze_students σ k = StudentAnalysis.analyze_students σ' k := by
  unfold StudentAnalysis.analyze_students
  rw [generate_eq_of_agreeing_draws σ σ' 100 k (fun i hi => h i (by omega))]

/-- C8 witness: two streams agreeing on positions 0..499 (one of them differs
from position 500 on), on which the determinism theorem applies. -/
theorem C8_analyze_students_prefix_determinism_witness :
    StudentAnalysis.analyze_students (fun _ => 0) 0 =
      StudentAnalysis.analyze_students (fun i => if i < 500 then 0 else 7) 0 :=
  C8_analyze_students_prefix_determinism (fun _ => 0)
    (fun i => if i < 500 then 0 else 7) 0
    (fun i hi => by
      show 0 = if 0 + i < 500 then 0 else 7
      rw [if_pos (by omega)])

/-- A constant stream segment generates constant students. -/
theorem generate_const_stream (σ : ℕ → ℕ) (v : ℕ) :
    ∀ (n k : ℕ), (∀ i, k ≤ i → i < k + 5 * n → σ i = v) →
      StudentAnalysis.generate_sample_student_data σ k n =
        List.replicate n (StudentAnalysis.mkStudentConst v) := by
  intro n
  induction n with
  | zero => intro k _; rfl
  | succ m ih =>
    intro k h
    have e0 : σ k = v := h k (le_refl k) (by omega)
    have e1 : σ (k + 1) = v := h (k + 1) (by omega) (by omega)
    have e2 : σ (k + 2) = v := h (k + 2) (by omega) (by omega)
    have e3 : σ (k + 3) = v := h (k + 3) (by omega) (by omega)
    have e4 : σ (k + 4) = v := h (k + 4) (by omega) (by omega)
    unfold StudentAnalysis.generate_sample_student_data
    rw [List.replicate_succ]
    rw [show StudentAnalysis.mkStudent σ k = StudentAnalysis.mkStudentConst v by
      unfold StudentAnalysis.mkStudent StudentAnalysis.mkStudentConst
        StudentAnalysis.randint StudentAnalysis.choice
      rw [e0, e1, e2, e3, e4]
      norm_num [StudentAnalysis.jobs, StudentAnalysis.addresses]]
    rw [ih (k + 5) (fun i hl hr => h i (by omega) (by omega))]

/-- The mean-grade field of the record built from n identical students with
grade g is round(g, 2) (for n > 0). -/
theorem buildRecord_replicate_mean (n : ℕ) (hn : 0 < n) (s : StudentAnalysis.Student) :
    (StudentAnalysis.buildRecord (List.replicate n s)).summary.mean_grade =
      LinearRegression.pyRound2 ((s.math_grade : ℚ)) := by
  unfold StudentAnalysis.buildRecord
  simp only [List.map_replicate, List.sum_replicate, List.length_replicate, nsmul_eq_mul]
  congr 1
  rw [mul_div_cancel_left₀]
  exact_mod_cast hn.ne'

/-- C8 counterexample: with the process-global RNG stream that yields 0 for
the first 500 draws and 1 afterwards, two successive calls of the student
analysis (the second resuming from the state the first left behind) produce
different result records — the first reports mean grade 0, the second mean
grade 1.  Idempotence fails for this component because its input comes from
the advancing global RNG state, not from explicit arguments. -/
theorem C8_counterexample_successive_calls_differ :
    (StudentAnalysis.analyze_students (fun i => if i < 500 then 0 else 1) 0).2 = 500 ∧
    (StudentAnalysis.analyze_students (fun i => if i < 500 then 0 else 1) 0).1 ≠
      (StudentAnalysis.analyze_students (fun i => if i < 500 then 0 else 1) 500).1 := by
  have hg1 : StudentAnalysis.generate_sample_student_data
      (fun i => if i < 500 then 0 else 1) 0 100 =
      List.replicate 100 (StudentAnalysis.mkStudentConst 0) :=
    generate_const_stream _ 0 100 0
      (fun i _ hr => by rw [if_pos (by omega)])
  have hg2 : StudentAnalysis.generate_sample_student_data
      (fun i => if i < 500 then 0 else 1) 500 100 =
      List.replicate 100 (StudentAnalysis.mkStudentConst 1) :=
    generate_const_stream _ 1 100 500
      (fun i hl _ => by rw [if_neg (by omega)])
  have h1 : (StudentAnalysis.analyze_students
      (fun i => if i < 500 then 0 else 1) 0).1.summary.mean_grade = 0 := by
    show (StudentAnalysis.buildRecord (StudentAnalysis.generate_sample_student_data
      (fun i => if i < 500 then 0 else 1) 0 100)).summary.mean_grade = 0
    rw [hg1, buildRecord_replicate_mean 100 (by norm_num)]
    rw [show (StudentAnalysis.mkStudentConst 0).math_grade = 0 from rfl]
    rw [Nat.cast_zero, LinearRegression.pyRound2_zero]
  have h2 : (StudentAnalysis.analyze_students
      (fun i => if i < 500 then 0 else 1) 500).1.summary.mean_grade = 1 := by
    show (StudentAnalysis.buildRecord (StudentAnalysis.generate_sample_student_data
      (fun i => if i < 500 then 0 else 1) 500 100)).summary.mean_grade = 1
    rw [hg2, buildRecord_replicate_mean 100 (by norm_num)]
    rw [show (StudentAnalysis.mkStudentConst 1).math_grade = 1 from rfl]
    rw [Nat.cast_one]
    rw [show (1 : ℚ) = ((1 : ℤ) : ℚ) by norm_num, LinearRegression.pyRound2_intCast]
  refine ⟨rfl, ?_⟩
  intro h
  rw [h] at h1
  rw [h1] at h2
  exact absurd h2 (by norm_num)
